import Mathlib

/-!
Shallow embedding of the WebGL2 solar-system demo (`main.js`): the 4x4
column-major matrix library, the polygon geometry builder, the camera
state with its UI bindings, and the one-shot redraw scheduler.  Matrix
entries are modelled as real numbers; a `Mat4` is accessed as
`M row col`, matching the source accessor `idx4(r,c) = c*4+r` on the
flat 16-element array.
-/

namespace CompGraph

noncomputable section

/-- The matrices of `main.js`: 4x4 arrays of numbers, read through
`idx4(r,c)`; we model them as functions of (row, column). -/
def Mat4 : Type := Fin 4 → Fin 4 → ℝ

/-- Source `mat4Identity()`: zero array with entries 0, 5, 10, 15
(the diagonal) set to 1. -/
def mat4Identity : Mat4 := fun i j => if i = j then 1 else 0

/-- Source `mat4Mul(B, A)`: entry (r,c) of the output is the unrolled
four-term dot product of row r of B with column c of A. -/
def mat4Mul (B A : Mat4) : Mat4 := fun i j =>
  B i 0 * A 0 j + B i 1 * A 1 j + B i 2 * A 2 j + B i 3 * A 3 j

/-- Source `mat4Translate(tx,ty,tz)`: identity with entries 12, 13, 14
(rows 0..2 of column 3) set to the translation. -/
def mat4Translate (tx ty tz : ℝ) : Mat4 := fun i j =>
  if i = 0 ∧ j = 3 then tx
  else if i = 1 ∧ j = 3 then ty
  else if i = 2 ∧ j = 3 then tz
  else if i = j then 1 else 0

/-- Source `mat4Scale(sx,sy,sz)`: identity with entries 0, 5, 10
(the first three diagonal entries) set to the scale factors. -/
def mat4Scale (sx sy sz : ℝ) : Mat4 := fun i j =>
  if i = 0 ∧ j = 0 then sx
  else if i = 1 ∧ j = 1 then sy
  else if i = 2 ∧ j = 2 then sz
  else if i = j then 1 else 0

/-- Source `mat4RotateZ(a)`: identity with the upper-left 2x2 block set
to the plane rotation by `a` (entries 0, 4, 1, 5). -/
def mat4RotateZ (a : ℝ) : Mat4 := fun i j =>
  if i = 0 ∧ j = 0 then Real.cos a
  else if i = 0 ∧ j = 1 then -(Real.sin a)
  else if i = 1 ∧ j = 0 then Real.sin a
  else if i = 1 ∧ j = 1 then Real.cos a
  else if i = j then 1 else 0

/-- Source `mat4TRS(tx,ty,tz, angZ, sx,sy,sz)`:
`mat4Mul(mat4Translate(...), mat4Mul(mat4RotateZ(...), mat4Scale(...)))`. -/
def mat4TRS (tx ty tz angZ sx sy sz : ℝ) : Mat4 :=
  mat4Mul (mat4Translate tx ty tz) (mat4Mul (mat4RotateZ angZ) (mat4Scale sx sy sz))

/-- Source `mat4Perspective(fovDeg, aspect, near, far)`: zero array with
entries 0, 5, 10, 11, 14 set from the frustum parameters. -/
def mat4Perspective (fovDeg aspect near far : ℝ) : Mat4 :=
  let fov := fovDeg * Real.pi / 180
  let f := 1.0 / Real.tan (fov / 2)
  let nf := 1 / (near - far)
  fun i j =>
    if i = 0 ∧ j = 0 then f / aspect
    else if i = 1 ∧ j = 1 then f
    else if i = 2 ∧ j = 2 then (far + near) * nf
    else if i = 3 ∧ j = 2 then -1
    else if i = 2 ∧ j = 3 then 2 * far * near * nf
    else 0

/-- Source `mat4Ortho(l, r, b, t, n, f)`: zero array with entries
0, 5, 10, 12, 13, 14, 15 set from the box parameters. -/
def mat4Ortho (l r b t n f : ℝ) : Mat4 := fun i j =>
  if i = 0 ∧ j = 0 then 2 / (r - l)
  else if i = 1 ∧ j = 1 then 2 / (t - b)
  else if i = 2 ∧ j = 2 then -2 / (f - n)
  else if i = 0 ∧ j = 3 then -(r + l) / (r - l)
  else if i = 1 ∧ j = 3 then -(t + b) / (t - b)
  else if i = 2 ∧ j = 3 then -(f + n) / (f - n)
  else if i = 3 ∧ j = 3 then 1
  else 0

/-- Source `mat4View(cx, cy, cz, angZ)`:
`mat4Mul(mat4RotateZ(-angZ), mat4Translate(-cx, -cy, -cz))`. -/
def mat4View (cx cy cz angZ : ℝ) : Mat4 :=
  mat4Mul (mat4RotateZ (-angZ)) (mat4Translate (-cx) (-cy) (-cz))

/-- Application of a matrix to a column vector, as the vertex shader
does with `uViewProj * world` (GLSL column-vector convention). -/
def mulVec (M : Mat4) (v : Fin 4 → ℝ) : Fin 4 → ℝ := fun i =>
  M i 0 * v 0 + M i 1 * v 1 + M i 2 * v 2 + M i 3 * v 3

/-- Draw descriptor returned by the source `makeVAO(verts)`: the
uploaded flat vertex data, `count = verts.length / 2`, and
`indexed = false`. -/
structure VAODesc where
  verts : List ℝ
  count : ℕ
  indexed : Bool

/-- Source `makeVAO(verts)`: uploads `verts` and records
`count = verts.length / 2` (two floats per 2D vertex). -/
def makeVAO (verts : List ℝ) : VAODesc :=
  ⟨verts, verts.length / 2, false⟩

/-- The vertex pairs generated by the loop in `makePolygonVAO`:
for i in 0..segments-1, angle `t = (i/segments) * PI * 2.0`,
push `(cos t, sin t)`. -/
def polygonVerts (segments : ℕ) : List (ℝ × ℝ) :=
  (List.range segments).map fun (i : ℕ) =>
    let t := ((i : ℝ) / (segments : ℝ)) * Real.pi * 2.0
    (Real.cos t, Real.sin t)

/-- Source `makePolygonVAO(segments)`: flattens the pushed
`(cos t, sin t)` pairs and hands the flat list to `makeVAO`. -/
def makePolygonVAO (segments : ℕ) : VAODesc :=
  makeVAO ((polygonVerts segments).flatMap fun p => [p.1, p.2])

/-- The two camera modes of the source `state.mode` field
(`'ortho' | 'persp'`). -/
inductive Mode where
  | ortho
  | persp
deriving DecidableEq

/-- The camera-relevant fields of the source `state` object. -/
structure CamState where
  mode : Mode
  cx : ℝ
  cy : ℝ
  cz : ℝ
  ang : ℝ
  zoom : ℝ
  fovDeg : ℝ
  near : ℝ
  far : ℝ

/-- Initial values of the source `state` object:
mode `'ortho'`, position (0,0,3), yaw 0, zoom 1, fov 60°,
near 0.01, far 100. -/
def initState : CamState :=
  ⟨Mode.ortho, 0, 0, 3, 0, 1, 60, 0.01, 100⟩

/-- The projection matrix `P` computed inside `computeViewProj`:
perspective from fov/near/far in `'persp'` mode, else an orthographic
box from `halfH = 1.0 / max(0.001, zoom)` and `halfW = halfH * aspect`
with fixed depth range [-10, 10]. -/
def projMat (s : CamState) (aspect : ℝ) : Mat4 :=
  if s.mode = Mode.persp then
    mat4Perspective s.fovDeg aspect s.near s.far
  else
    let halfH := 1.0 / max 0.001 s.zoom
    let halfW := halfH * aspect
    mat4Ortho (-halfW) halfW (-halfH) halfH (-10) 10

/-- Source `computeViewProj()`: the product `mat4Mul(P, V)` of the
mode-dependent projection and the view matrix
`mat4View(s.cx, s.cy, s.cz, s.ang)`; the aspect ratio
(`canvas.width / canvas.height`) is passed explicitly. -/
def computeViewProj (s : CamState) (aspect : ℝ) : Mat4 :=
  mat4Mul (projMat s aspect) (mat4View s.cx s.cy s.cz s.ang)

/-- Source `clamp(v, lo, hi) = Math.min(hi, Math.max(lo, v))`. -/
def clamp (v lo hi : ℝ) : ℝ := min hi (max lo v)

/-- Binding for the cx control: `state.cx = v`. -/
def applyCx (v : ℝ) (s : CamState) : CamState := { s with cx := v }

/-- Binding for the cy control: `state.cy = v`. -/
def applyCy (v : ℝ) (s : CamState) : CamState := { s with cy := v }

/-- Binding for the angle control: `state.ang = (v * Math.PI) / 180`. -/
def applyAng (v : ℝ) (s : CamState) : CamState :=
  { s with ang := v * Real.pi / 180 }

/-- Binding for the zoom control: `state.zoom = Math.max(0.001, v)`. -/
def applyZoom (v : ℝ) (s : CamState) : CamState :=
  { s with zoom := max 0.001 v }

/-- Binding for the fov control: `state.fovDeg = clamp(v, 1, 179)`. -/
def applyFov (v : ℝ) (s : CamState) : CamState :=
  { s with fovDeg := clamp v 1 179 }

/-- Binding for the camera-depth control: `state.cz = Math.max(0.05, v)`. -/
def applyCamz (v : ℝ) (s : CamState) : CamState :=
  { s with cz := max 0.05 v }

/-- The `modeOrtho` change handler: if the radio is checked, set
`state.mode = 'ortho'`; otherwise do nothing. -/
def setModeOrtho (checked : Bool) (s : CamState) : CamState :=
  if checked then { s with mode := Mode.ortho } else s

/-- The `modePersp` change handler: if the radio is checked, set
`state.mode = 'persp'`; otherwise do nothing. -/
def setModePersp (checked : Bool) (s : CamState) : CamState :=
  if checked then { s with mode := Mode.persp } else s

/-- The reset-button click handler: position and yaw to 0, mode from
the `modeOrtho` radio, zoom 1.0, fov 60, camera depth 3.0. -/
def resetState (orthoChecked : Bool) (s : CamState) : CamState :=
  { s with cx := 0, cy := 0, ang := 0,
           mode := if orthoChecked then Mode.ortho else Mode.persp,
           zoom := 1.0, fovDeg := 60, cz := 3.0 }

/-- A user interaction with one of the camera controls. -/
inductive UIOp where
  | cx (v : ℝ)
  | cy (v : ℝ)
  | angle (v : ℝ)
  | zoom (v : ℝ)
  | fov (v : ℝ)
  | camz (v : ℝ)
  | modeOrtho (checked : Bool)
  | modePersp (checked : Bool)
  | reset (orthoChecked : Bool)

/-- Dispatch one UI interaction to its handler. -/
def uiStep (s : CamState) : UIOp → CamState
  | UIOp.cx v => applyCx v s
  | UIOp.cy v => applyCy v s
  | UIOp.angle v => applyAng v s
  | UIOp.zoom v => applyZoom v s
  | UIOp.fov v => applyFov v s
  | UIOp.camz v => applyCamz v s
  | UIOp.modeOrtho c => setModeOrtho c s
  | UIOp.modePersp c => setModePersp c s
  | UIOp.reset c => resetState c s

/-- Camera state after a sequence of UI interactions starting from the
initial `state` object. -/
def runUI (ops : List UIOp) : CamState := ops.foldl uiStep initState

end

/-- Scheduler-relevant fields of the source `state`: the `_dirty`
pending-redraw flag, the `_raf` animation-frame handle (0 = none), and
the number of callbacks the browser still has queued (environment
model of `requestAnimationFrame`). -/
structure SchedState where
  dirty : Bool
  raf : ℕ
  outstanding : ℕ
deriving DecidableEq, Repr

/-- Initial scheduler state: `_dirty: true`, `_raf: 0`, nothing queued. -/
def initSched : SchedState := ⟨true, 0, 0⟩

/-- A scheduler event: a call to `markDirty()` (with `h` the handle the
browser returns from `requestAnimationFrame`), or the browser firing
the queued `frame` callback. -/
inductive SchedEv where
  | mark (h : ℕ)
  | frame
deriving DecidableEq, Repr

/-- One scheduler step, returning the new state and the number of
render passes performed.  `markDirty()` sets `_dirty` and requests a
callback only when `_raf` is 0; `frame()` zeroes `_raf`, renders once
if `_dirty` is set, and clears `_dirty`. -/
def schedStep (s : SchedState) : SchedEv → SchedState × ℕ
  | SchedEv.mark h =>
    if s.raf = 0 then (⟨true, h, s.outstanding + 1⟩, 0)
    else (⟨true, s.raf, s.outstanding⟩, 0)
  | SchedEv.frame =>
    (⟨false, 0, s.outstanding - 1⟩, if s.dirty then 1 else 0)

/-- An event is possible in a state: the browser hands `markDirty` a
nonzero handle, and a `frame` callback fires only if one is queued. -/
def validEv (s : SchedState) : SchedEv → Prop
  | SchedEv.mark h => h ≠ 0
  | SchedEv.frame => 0 < s.outstanding

/-- State reached after a sequence of scheduler events. -/
def schedRun (s : SchedState) : List SchedEv → SchedState
  | [] => s
  | e :: es => schedRun (schedStep s e).1 es

/-- Every event of the sequence is possible at the state it runs in. -/
def validTrace (s : SchedState) : List SchedEv → Prop
  | [] => True
  | e :: es => validEv s e ∧ validTrace (schedStep s e).1 es

/-- Invariant of reachable scheduler states: exactly one callback is
queued iff `_raf` is nonzero, and a queued callback implies the dirty
flag is set. -/
def SchedInv (s : SchedState) : Prop :=
  s.outstanding = (if s.raf = 0 then 0 else 1) ∧ (s.raf ≠ 0 → s.dirty = true)

/-! Helper lemmas. -/

lemma mat4Mul_identity_left (M : Mat4) : mat4Mul mat4Identity M = M := by
  funext i j
  fin_cases i <;> simp [mat4Mul, mat4Identity]

lemma mat4Mul_identity_right (M : Mat4) : mat4Mul M mat4Identity = M := by
  funext i j
  fin_cases j <;> simp [mat4Mul, mat4Identity]

lemma mat4Translate_zero : mat4Translate 0 0 0 = mat4Identity := by
  funext i j
  fin_cases i <;> fin_cases j <;> simp [mat4Translate, mat4Identity]

lemma mat4RotateZ_zero : mat4RotateZ 0 = mat4Identity := by
  funext i j
  fin_cases i <;> fin_cases j <;>
    simp [mat4RotateZ, mat4Identity, Real.cos_zero, Real.sin_zero]

lemma mat4Scale_one : mat4Scale 1 1 1 = mat4Identity := by
  funext i j
  fin_cases i <;> fin_cases j <;> simp [mat4Scale, mat4Identity]

lemma length_flatMap_pair (l : List (ℝ × ℝ)) :
    (l.flatMap fun p => [p.1, p.2]).length = 2 * l.length := by
  induction l with
  | nil => simp
  | cons a l ih => simp [ih]; ring

lemma polygonVerts_length (n : ℕ) : (polygonVerts n).length = n := by
  rw [polygonVerts, List.length_map, List.length_range]

lemma polygonVerts_on_circle (n : ℕ) :
    ∀ v ∈ polygonVerts n, v.1 ^ 2 + v.2 ^ 2 = 1 := by
  intro v hv
  simp only [polygonVerts, List.mem_map, List.mem_range] at hv
  obtain ⟨i, _, hv⟩ := hv
  rw [← hv]
  simp

/-! Claim theorems. -/

/-- C7: for every 4x4 matrix M, `mat4Mul(mat4Identity(), M) = M` and
`mat4Mul(M, mat4Identity()) = M` (left and right identity laws). -/
theorem mat4Mul_identity_laws (M : Mat4) :
    mat4Mul mat4Identity M = M ∧ mat4Mul M mat4Identity = M :=
  ⟨mat4Mul_identity_left M, mat4Mul_identity_right M⟩

/-- C6: `mat4TRS(tx,ty,tz, angZ, sx,sy,sz)` equals the product
translate * rotateZ * scale (scale first, then rotation, then
translation), and `mat4TRS(0,0,0, 0, 1,1,1)` is the identity matrix. -/
theorem mat4TRS_compose (tx ty tz angZ sx sy sz : ℝ) :
    mat4TRS tx ty tz angZ sx sy sz =
      mat4Mul (mat4Translate tx ty tz)
        (mat4Mul (mat4RotateZ angZ) (mat4Scale sx sy sz)) ∧
    mat4TRS 0 0 0 0 1 1 1 = mat4Identity := by
  refine ⟨rfl, ?_⟩
  rw [mat4TRS, mat4Translate_zero, mat4RotateZ_zero, mat4Scale_one,
    mat4Mul_identity_left, mat4Mul_identity_left]

/-- C8: the descriptor built by `makePolygonVAO(segments)` has vertex
count exactly `segments`; in particular 4 for `segments=4` and 96 for
`segments=96`. -/
theorem makePolygonVAO_count (segments : ℕ) :
    (makePolygonVAO segments).count = segments ∧
    (makePolygonVAO 4).count = 4 ∧ (makePolygonVAO 96).count = 96 := by
  have h : ∀ n, (makePolygonVAO n).count = n := by
    intro n
    simp only [makePolygonVAO, makeVAO, length_flatMap_pair, polygonVerts_length]
    omega
  exact ⟨h segments, h 4, h 96⟩

/-- C1 counterexample: `makePolygonVAO(4)` emits exactly 4 vertices and
none of them is the origin, so the claimed fan of 4 triangles each with
one vertex at the origin (carrying a center color) does not describe
this geometry. -/
theorem polygonVAO_no_center_vertex :
    (makePolygonVAO 4).verts =
      ((polygonVerts 4).flatMap fun p => [p.1, p.2]) ∧
    (polygonVerts 4).length = 4 ∧ ((0 : ℝ), (0 : ℝ)) ∉ polygonVerts 4 := by
  refine ⟨rfl, polygonVerts_length 4, ?_⟩
  intro hmem
  have h := polygonVerts_on_circle 4 _ hmem
  norm_num at h

/-- C1 amended: `makePolygonVAO(segments)` produces exactly `segments`
vertices, every one of which lies on the unit circle boundary (and none
at the origin); there is no center vertex and no per-vertex color
attribute (color is a per-draw uniform). -/
theorem polygonVerts_boundary (segments : ℕ) :
    (makePolygonVAO segments).verts =
      ((polygonVerts segments).flatMap fun p => [p.1, p.2]) ∧
    (polygonVerts segments).length = segments ∧
    (polygonVerts segments).Forall
      (fun v => v.1 ^ 2 + v.2 ^ 2 = 1 ∧ v ≠ ((0 : ℝ), (0 : ℝ))) := by
  refine ⟨rfl, polygonVerts_length segments, List.forall_iff_forall_mem.mpr ?_⟩
  intro v hv
  have h := polygonVerts_on_circle segments v hv
  refine ⟨h, ?_⟩
  intro hveq
  rw [hveq] at h
  norm_num at h

/-- C4: the modeOrtho/modePersp change handlers leave the camera
position fields cx, cy, cz, the yaw ang, and the projection parameters
zoom, fovDeg, near, far unchanged; only the mode field changes (to
ortho resp. persp when the radio is checked). -/
theorem mode_switch_preserves_camera (checked : Bool) (s : CamState) :
    (setModeOrtho checked s).cx = s.cx ∧ (setModeOrtho checked s).cy = s.cy ∧
    (setModeOrtho checked s).cz = s.cz ∧ (setModeOrtho checked s).ang = s.ang ∧
    (setModeOrtho checked s).zoom = s.zoom ∧
    (setModeOrtho checked s).fovDeg = s.fovDeg ∧
    (setModeOrtho checked s).near = s.near ∧
    (setModeOrtho checked s).far = s.far ∧
    (setModePersp checked s).cx = s.cx ∧ (setModePersp checked s).cy = s.cy ∧
    (setModePersp checked s).cz = s.cz ∧ (setModePersp checked s).ang = s.ang ∧
    (setModePersp checked s).zoom = s.zoom ∧
    (setModePersp checked s).fovDeg = s.fovDeg ∧
    (setModePersp checked s).near = s.near ∧
    (setModePersp checked s).far = s.far ∧
    (setModeOrtho true s).mode = Mode.ortho ∧
    (setModePersp true s).mode = Mode.persp := by
  cases checked <;> simp [setModeOrtho, setModePersp]

/-- C5: the zoom binding clamps every input to at least 0.001, the
clamp makes `max 0.001 zoom` (the divisor of the orthographic
half-height `halfH = 1.0 / max(0.001, zoom)`) coincide with the stored
zoom, and that divisor is strictly positive for every state, so
`computeViewProj` never divides by zero. -/
theorem zoom_clamp_no_div_zero (v : ℝ) (s : CamState) :
    0.001 ≤ (applyZoom v s).zoom ∧
    max 0.001 (applyZoom v s).zoom = (applyZoom v s).zoom ∧
    0 < max 0.001 s.zoom ∧
    0 < 1.0 / max 0.001 (applyZoom v s).zoom := by
  have hle : (0.001 : ℝ) ≤ (applyZoom v s).zoom := le_max_left _ _
  have hpos : (0 : ℝ) < max 0.001 s.zoom :=
    lt_of_lt_of_le (by norm_num) (le_max_left _ _)
  have hpos2 : (0 : ℝ) < max 0.001 (applyZoom v s).zoom :=
    lt_of_lt_of_le (by norm_num) (le_max_left _ _)
  exact ⟨hle, max_eq_right hle, hpos, by positivity⟩

/-- Every single UI interaction preserves the lower bound 0.05 on the
camera depth cz. -/
lemma uiStep_cz_lb (s : CamState) (op : UIOp) (h : 0.05 ≤ s.cz) :
    0.05 ≤ (uiStep s op).cz := by
  cases op with
  | cx v => exact h
  | cy v => exact h
  | angle v => exact h
  | zoom v => exact h
  | fov v => exact h
  | camz v => exact le_max_left _ _
  | modeOrtho c => cases c <;> simpa [uiStep, setModeOrtho] using h
  | modePersp c => cases c <;> simpa [uiStep, setModePersp] using h
  | reset c => norm_num [uiStep, resetState]

/-- Folding UI interactions preserves the cz lower bound. -/
lemma runUI_cz_aux :
    ∀ (ops : List UIOp) (s : CamState), 0.05 ≤ s.cz →
      0.05 ≤ (ops.foldl uiStep s).cz
  | [], _, h => h
  | op :: ops, s, h => runUI_cz_aux ops _ (uiStep_cz_lb s op h)

/-- C10: the camera-depth binding stores `max(0.05, v)` (so any input
below 0.05 is clamped up to it and the result is at least 0.05), the
initial cz is 3, reset restores cz = 3.0, and after any sequence of UI
interactions starting from the initial state cz is at least 0.05. -/
theorem camz_lower_bound (v : ℝ) (b : Bool) (s : CamState) (ops : List UIOp) :
    (applyCamz v s).cz = max 0.05 v ∧
    0.05 ≤ (applyCamz v s).cz ∧
    initState.cz = 3 ∧
    (resetState b s).cz = 3.0 ∧
    0.05 ≤ (runUI ops).cz :=
  ⟨rfl, le_max_left _ _, rfl, rfl,
    runUI_cz_aux ops initState (by norm_num [initState])⟩

/-- C3: with orthographic mode, zoom 1, camera at the origin, yaw 0 and
a square viewport (aspect 1), the view-projection matrix of
`computeViewProj` maps the homogeneous point (0,0,0,1) to a clip-space
vector whose x and y components are 0 and whose w component is 1. -/
theorem ortho_center_maps_to_origin :
    mulVec (computeViewProj ⟨Mode.ortho, 0, 0, 0, 0, 1, 60, 0.01, 100⟩ 1)
        (fun i => if i = 3 then 1 else 0) 0 = 0 ∧
    mulVec (computeViewProj ⟨Mode.ortho, 0, 0, 0, 0, 1, 60, 0.01, 100⟩ 1)
        (fun i => if i = 3 then 1 else 0) 1 = 0 ∧
    mulVec (computeViewProj ⟨Mode.ortho, 0, 0, 0, 0, 1, 60, 0.01, 100⟩ 1)
        (fun i => if i = 3 then 1 else 0) 3 = 1 := by
  have hmax : max (0.001 : ℝ) 1 = 1 := max_eq_right (by norm_num)
  have hview : mat4View 0 0 0 0 = mat4Identity := by
    rw [mat4View, neg_zero, mat4RotateZ_zero, mat4Translate_zero,
      mat4Mul_identity_left]
  have hVP : computeViewProj ⟨Mode.ortho, 0, 0, 0, 0, 1, 60, 0.01, 100⟩ 1 =
      mat4Ortho (-1) 1 (-1) 1 (-10) 10 := by
    rw [computeViewProj]
    dsimp only
    rw [hview, mat4Mul_identity_right, projMat]
    dsimp only
    norm_num [hmax]
    exact fun h => nomatch h
  rw [hVP]
  refine ⟨?_, ?_, ?_⟩ <;> · simp [mulVec, mat4Ortho]

/-- C9: for a fixed camera state and two positive, distinct aspect
ratios (with the perspective FOV in its clamped range (0°,180°) when
perspective mode is active), `computeViewProj` factors in both runs as
the projection times the same view matrix
`mat4View(cx, cy, cz, ang)` — the view matrix does not depend on the
aspect ratio — while the projection matrices of the two runs differ. -/
theorem view_independent_of_aspect (s : CamState) (a1 a2 : ℝ)
    (h1 : 0 < a1) (h2 : 0 < a2) (hne : a1 ≠ a2)
    (hfov : s.mode = Mode.persp → 0 < s.fovDeg ∧ s.fovDeg < 180) :
    computeViewProj s a1 =
      mat4Mul (projMat s a1) (mat4View s.cx s.cy s.cz s.ang) ∧
    computeViewProj s a2 =
      mat4Mul (projMat s a2) (mat4View s.cx s.cy s.cz s.ang) ∧
    projMat s a1 ≠ projMat s a2 := by
  refine ⟨rfl, rfl, fun hEq => ?_⟩
  have h00 := congrFun (congrFun hEq 0) 0
  cases hm : s.mode with
  | ortho =>
    simp only [projMat, hm, reduceCtorEq, if_false, mat4Ortho] at h00
    simp at h00
    have hm0 : (0 : ℝ) < max 0.001 s.zoom :=
      lt_of_lt_of_le (by norm_num) (le_max_left _ _)
    have ha1 := ne_of_gt h1
    have ha2 := ne_of_gt h2
    have hmne := ne_of_gt hm0
    field_simp at h00
    exact hne (by linarith)
  | persp =>
    simp only [projMat, hm, if_true, mat4Perspective] at h00
    simp at h00
    obtain ⟨hf1, hf2⟩ := hfov hm
    have hkey : s.fovDeg * Real.pi < 180 * Real.pi := by nlinarith [Real.pi_pos]
    have ht1 : 0 < s.fovDeg * Real.pi / 180 / 2 := by positivity
    have ht2 : s.fovDeg * Real.pi / 180 / 2 < Real.pi / 2 := by linarith
    have htan : 0 < Real.tan (s.fovDeg * Real.pi / 180 / 2) :=
      Real.tan_pos_of_pos_of_lt_pi_div_two ht1 ht2
    have ha1 := ne_of_gt h1
    have ha2 := ne_of_gt h2
    have htne : Real.tan (s.fovDeg * Real.pi / (180 * 2)) ≠ 0 := by
      rw [← div_div]
      exact ne_of_gt htan
    field_simp at h00
    rcases h00 with (h | h) | h
    · exact hne h.symm
    · exact htne h
    · norm_num at h

/-- Witness for C9: the initial camera state with aspect ratios 1 and
2 satisfies the hypotheses, and the conclusion holds there. -/
theorem view_independent_of_aspect_witness :
    computeViewProj initState 1 =
      mat4Mul (projMat initState 1)
        (mat4View initState.cx initState.cy initState.cz initState.ang) ∧
    computeViewProj initState 2 =
      mat4Mul (projMat initState 2)
        (mat4View initState.cx initState.cy initState.cz initState.ang) ∧
    projMat initState 1 ≠ projMat initState 2 :=
  view_independent_of_aspect initState 1 2 (by norm_num) (by norm_num)
    (by norm_num) (fun h => nomatch h)

/-- The scheduler invariant holds in the initial state. -/
lemma schedInv_init : SchedInv initSched := by
  refine ⟨rfl, fun h => ?_⟩
  exact absurd rfl h

/-- One possible scheduler step preserves the invariant. -/
lemma schedStep_inv (s : SchedState) (e : SchedEv)
    (hv : validEv s e) (hi : SchedInv s) : SchedInv (schedStep s e).1 := by
  obtain ⟨ho, hd⟩ := hi
  cases e with
  | mark h =>
    have hv' : h ≠ 0 := hv
    by_cases hr : s.raf = 0
    · have hstep : (schedStep s (SchedEv.mark h)).1 =
          ⟨true, h, s.outstanding + 1⟩ := by simp [schedStep, hr]
      rw [hstep]
      refine ⟨?_, fun _ => rfl⟩
      show s.outstanding + 1 = if h = 0 then 0 else 1
      rw [if_neg hv', ho, if_pos hr]
    · have hstep : (schedStep s (SchedEv.mark h)).1 =
          ⟨true, s.raf, s.outstanding⟩ := by simp [schedStep, hr]
      rw [hstep]
      exact ⟨ho, fun _ => rfl⟩
  | frame =>
    refine ⟨?_, fun h0 => absurd rfl h0⟩
    show s.outstanding - 1 = if (0 : ℕ) = 0 then 0 else 1
    rw [if_pos rfl]
    have hle : s.outstanding ≤ 1 := by
      rw [ho]
      split <;> norm_num
    omega

/-- Running a valid trace from an invariant state keeps the invariant. -/
lemma schedRun_inv :
    ∀ (evs : List SchedEv) (s : SchedState),
      SchedInv s → validTrace s evs → SchedInv (schedRun s evs)
  | [], _, hi, _ => hi
  | e :: es, s, hi, hv =>
    schedRun_inv es _ (schedStep_inv s e hv.1 hi) hv.2

/-- C2: after any valid sequence of markDirty/frame events from the
initial scheduler state, at most one animation-frame callback is
outstanding; a markDirty while a request is pending requests nothing
new (the queue length is unchanged); when the queued callback fires it
performs exactly one render pass and leaves the dirty flag, the raf
handle and the queue cleared; and no step renders while the dirty flag
is clear. -/
theorem scheduler_one_shot (evs : List SchedEv)
    (hv : validTrace initSched evs) :
    (schedRun initSched evs).outstanding ≤ 1 ∧
    (∀ h, (schedRun initSched evs).raf ≠ 0 →
      (schedStep (schedRun initSched evs) (SchedEv.mark h)).1.outstanding =
        (schedRun initSched evs).outstanding) ∧
    (0 < (schedRun initSched evs).outstanding →
      (schedStep (schedRun initSched evs) SchedEv.frame).2 = 1 ∧
      (schedStep (schedRun initSched evs) SchedEv.frame).1.dirty = false ∧
      (schedStep (schedRun initSched evs) SchedEv.frame).1.raf = 0 ∧
      (schedStep (schedRun initSched evs) SchedEv.frame).1.outstanding = 0) ∧
    ((schedRun initSched evs).dirty = false →
      ∀ e, (schedStep (schedRun initSched evs) e).2 = 0) := by
  obtain ⟨ho, hd⟩ := schedRun_inv evs initSched schedInv_init hv
  set s := schedRun initSched evs with hs
  refine ⟨?_, ?_, ?_, ?_⟩
  · rw [ho]
    split <;> norm_num
  · intro h hr
    simp [schedStep, hr]
  · intro hout
    have hr : s.raf ≠ 0 := by
      intro h0
      rw [ho, if_pos h0] at hout
      exact absurd hout (by norm_num)
    have hdt := hd hr
    refine ⟨?_, rfl, rfl, ?_⟩
    · simp [schedStep, hdt]
    · simp only [schedStep]
      rw [ho, if_neg hr]
  · intro hdf e
    cases e with
    | mark h =>
      simp only [schedStep]
      split <;> rfl
    | frame =>
      simp [schedStep, hdf]

/-- Witness for C2: the trace [markDirty, frame] is valid from the
initial state and the conclusion holds for it. -/
theorem scheduler_one_shot_witness :
    validTrace initSched [SchedEv.mark 1, SchedEv.frame] ∧
    ((schedRun initSched [SchedEv.mark 1, SchedEv.frame]).outstanding ≤ 1 ∧
    (∀ h, (schedRun initSched [SchedEv.mark 1, SchedEv.frame]).raf ≠ 0 →
      (schedStep (schedRun initSched [SchedEv.mark 1, SchedEv.frame])
          (SchedEv.mark h)).1.outstanding =
        (schedRun initSched [SchedEv.mark 1, SchedEv.frame]).outstanding) ∧
    (0 < (schedRun initSched [SchedEv.mark 1, SchedEv.frame]).outstanding →
      (schedStep (schedRun initSched [SchedEv.mark 1, SchedEv.frame])
        SchedEv.frame).2 = 1 ∧
      (schedStep (schedRun initSched [SchedEv.mark 1, SchedEv.frame])
        SchedEv.frame).1.dirty = false ∧
      (schedStep (schedRun initSched [SchedEv.mark 1, SchedEv.frame])
        SchedEv.frame).1.raf = 0 ∧
      (schedStep (schedRun initSched [SchedEv.mark 1, SchedEv.frame])
        SchedEv.frame).1.outstanding = 0) ∧
    ((schedRun initSched [SchedEv.mark 1, SchedEv.frame]).dirty = false →
      ∀ e, (schedStep (schedRun initSched [SchedEv.mark 1, SchedEv.frame])
        e).2 = 0)) := by
  have hv : validTrace initSched [SchedEv.mark 1, SchedEv.frame] := by
    refine ⟨one_ne_zero, ?_, trivial⟩
    norm_num [schedStep, initSched, validEv]
  exact ⟨hv, scheduler_one_shot [SchedEv.mark 1, SchedEv.frame] hv⟩

end CompGraph
